import Mathlib

/-!
# Verification of the calendar slot-resolution and booking logic

Shallow embedding of the calendar-booking core of the repository
(`client/src/components/CalendarBooking.tsx`): timestamp parsing and
re-assembly for booking requests, display-time conversion, the 45-minute
end-time computations, the availability cache and its fetch/discard
behaviour, month navigation, timezone offset resolution and timezone
auto-detection.  Machine integers are modelled as `Nat`/`Int`; JavaScript
strings as `String`/`List Char` (the slot timestamps are ASCII, so one
`Char` per UTF-16 code unit).
-/

namespace CareflowCalendar

/-! ## Character and digit utilities -/

/-- The regex digit class `\d` (ASCII `0`-`9`), on code units. -/
def isDigitCh (c : Char) : Bool := 48 ≤ c.toNat && c.toNat ≤ 57

/-- The decimal digit character for `d` (faithful for `d < 10`). -/
def digitChar (d : Nat) : Char := Char.ofNat (48 + d)

/-- JavaScript `String(n).padStart(2, '0')`, faithful for `n < 100`;
every use site in the component has `n < 100` (hours after `% 24` or a
bounded sum, minutes after `% 60`). -/
def pad2 (n : Nat) : List Char := [digitChar (n / 10), digitChar (n % 10)]

/-- JavaScript `parseInt`/`Number` on a string of decimal digits. -/
def parseIntL (l : List Char) : Nat :=
  l.foldl (fun a c => a * 10 + (c.toNat - 48)) 0

/-- JavaScript `String.prototype.split` with a one-character separator. -/
def splitOnCh (sep : Char) : List Char → List (List Char)
  | [] => [[]]
  | c :: rest =>
    let r := splitOnCh sep rest
    if c = sep then [] :: r
    else
      match r with
      | g :: gs => (c :: g) :: gs
      | [] => [[c]]

/-- Lexicographic comparison of UTF-16 code-unit sequences: the order
JavaScript's default `Array.prototype.sort` uses on strings. -/
def lexLe : List Char → List Char → Bool
  | [], _ => true
  | _ :: _, [] => false
  | a :: as, b :: bs =>
    if a.toNat < b.toNat then true
    else if b.toNat < a.toNat then false
    else lexLe as bs

/-- String comparison `a <= b` as JavaScript's sort comparator sees it. -/
def strLeB (a b : String) : Bool := lexLe a.data b.data

/-- Test of `needle.isPrefixOf` at every suffix of the haystack:
JavaScript `String.prototype.includes`. -/
def infixCheck (needle : List Char) : List Char → Bool
  | [] => needle.isEmpty
  | c :: rest => needle.isPrefixOf (c :: rest) || infixCheck needle rest

/-- JavaScript `s.includes(sub)`. -/
def strContains (s sub : String) : Bool := infixCheck sub.data s.data

/-- JavaScript `s.startsWith(pfx)`. -/
def strStarts (s pfx : String) : Bool := pfx.data.isPrefixOf s.data

/-! ## The provider (GHL) timestamp pattern

`handleBooking` parses the stored provider timestamp with the strict
regex `^(\d{4}-\d{2}-\d{2})T(\d{2}):(\d{2}):(\d{2})([+-]\d{2}:\d{2})$`
(CalendarBooking.tsx line 512).  A match is 25 code units long with all
groups at fixed positions. -/

/-- The five capture groups of the provider-timestamp regex. -/
structure GhlParts where
  date : List Char
  hour : List Char
  minute : List Char
  second : List Char
  offset : List Char
deriving DecidableEq

/-- The strict provider-timestamp pattern match of `handleBooking`
(line 512): `some` of the capture groups exactly when the whole string
matches, `none` otherwise. -/
def ghlMatch : List Char → Option GhlParts
  | [y1, y2, y3, y4, k1, a1, a2, k2, b1, b2, tc,
     h1, h2, k4, m1, m2, k5, s1, s2, sg, o1, o2, k6, q1, q2] =>
    if isDigitCh y1 = true ∧ isDigitCh y2 = true ∧ isDigitCh y3 = true ∧
       isDigitCh y4 = true ∧ k1 = '-' ∧ isDigitCh a1 = true ∧
       isDigitCh a2 = true ∧ k2 = '-' ∧ isDigitCh b1 = true ∧
       isDigitCh b2 = true ∧ tc = 'T' ∧ isDigitCh h1 = true ∧
       isDigitCh h2 = true ∧ k4 = ':' ∧ isDigitCh m1 = true ∧
       isDigitCh m2 = true ∧ k5 = ':' ∧ isDigitCh s1 = true ∧
       isDigitCh s2 = true ∧ (sg = '+' ∨ sg = '-') ∧ isDigitCh o1 = true ∧
       isDigitCh o2 = true ∧ k6 = ':' ∧ isDigitCh q1 = true ∧
       isDigitCh q2 = true then
      some ⟨[y1, y2, y3, y4, k1, a1, a2, k2, b1, b2],
            [h1, h2], [m1, m2], [s1, s2], [sg, o1, o2, k6, q1, q2]⟩
    else none
  | _ => none

/-- The provider-side booking end-time assembly of `handleBooking`
(lines 519-532): add 45 minutes to the parsed hour/minute, wrap the
hour with `% 24`, keep the date string, the seconds and the offset
substring of the start timestamp unchanged. -/
def buildEndTime (p : GhlParts) : List Char :=
  let startMinutes := parseIntL p.hour * 60 + parseIntL p.minute
  let endMinutes := startMinutes + 45
  let endHours := endMinutes / 60
  let endMins := endMinutes % 60
  p.date ++ 'T' :: pad2 (endHours % 24) ++ ':' :: pad2 endMins ++
    ':' :: p.second ++ p.offset

/-- The display-side end-time computation `getEndTime` (lines 420-427):
split `HH:MM[:SS]` on `:`, take hours and minutes, add 45 minutes; the
resulting hour is `floor(total/60)` with NO reduction modulo 24. -/
def getEndTime (startTime : List Char) : List Char :=
  if startTime = [] then []
  else
    let nums := (splitOnCh ':' startTime).map parseIntL
    let hours := nums.getD 0 0
    let minutes := nums.getD 1 0
    let totalMinutes := hours * 60 + minutes + 45
    let endHours := totalMinutes / 60
    let endMinutes := totalMinutes % 60
    pad2 endHours ++ ':' :: pad2 endMinutes

/-! ## Instants and the display-time conversion

The fetchers turn each provider timestamp into an absolute instant
(`new Date(slotTime)`) and render its time-of-day under the viewer's
timezone (`toLocaleString` with `timeZone`, `hour12: false`, 2-digit
hour/minute/second).  Instants are modelled as seconds since the civil
epoch 1970-01-01. -/

/-- Days from 1970-01-01 to the civil date `y-m-d` (proleptic Gregorian,
the standard `days_from_civil` algorithm used by civil-time libraries
and by JavaScript `Date` parsing of ISO strings). -/
def daysFromCivil (y m d : Int) : Int :=
  let y2 := if m ≤ 2 then y - 1 else y
  let era := (if 0 ≤ y2 then y2 else y2 - 399) / 400
  let yoe := y2 - era * 400
  let mShift := if 2 < m then m - 3 else m + 9
  let doy := (153 * mShift + 2) / 5 + d - 1
  let doe := yoe * 365 + yoe / 4 - yoe / 100 + doy
  era * 146097 + doe - 719468

/-- Year, month and day parsed out of a matched 10-character date group. -/
def ghlDateYMD (date : List Char) : Int × Int × Int :=
  (parseIntL (date.take 4), parseIntL ((date.drop 5).take 2),
   parseIntL (date.drop 8))

/-- Signed minutes of a matched offset group `[+-]HH:MM`. -/
def ghlOffsetMinutes (off : List Char) : Int :=
  match off with
  | sg :: rest =>
    let v : Int := parseIntL (rest.take 2) * 60 + parseIntL (rest.drop 3)
    if sg = '-' then -v else v
  | [] => 0

/-- The absolute instant (seconds since epoch) denoted by a matched
provider timestamp: local clock reading minus the explicit offset —
what `new Date("YYYY-MM-DDThh:mm:ss±HH:MM").getTime()/1000` computes. -/
def ghlToEpochSeconds (p : GhlParts) : Int :=
  let ymd := ghlDateYMD p.date
  let localSecs := daysFromCivil ymd.1 ymd.2.1 ymd.2.2 * 86400 +
    parseIntL p.hour * 3600 + parseIntL p.minute * 60 + parseIntL p.second
  localSecs - ghlOffsetMinutes p.offset * 60

/-- The `HH:MM:SS` rendering of an instant shifted by a viewer offset of
`offMin` minutes: the `timePart` the fetchers extract from
`toLocaleString` (lines 296-305 and 381-390). -/
def toDisplayTimePart (offMin : Int) (instant : Int) : List Char :=
  let wall := instant + offMin * 60
  let tod := wall % 86400
  pad2 (tod / 3600).toNat ++ ':' :: pad2 ((tod % 3600) / 60).toNat ++
    ':' :: pad2 (tod % 60).toNat

/-- Display conversion of one raw provider slot string under a viewer
offset: parse it as an absolute instant and reformat the time-of-day.
A string outside the provider's fixed-offset form renders as
`Invalid Date`, which is what `toLocaleString` produces for an invalid
`Date` (other `Date`-parsable formats never reach the component and
are out of scope). -/
def displayOf (offMin : Int) (raw : List Char) : List Char :=
  match ghlMatch raw with
  | some p => toDisplayTimePart offMin (ghlToEpochSeconds p)
  | none => "Invalid Date".data

/-! ## TimeSlot construction and the fetch transforms -/

/-- The `TimeSlot` record (CalendarBooking.tsx lines 9-14). -/
structure TimeSlot where
  startTime : List Char
  endTime : List Char
  available : Bool
  originalGHLTime : Option (List Char)
deriving DecidableEq

/-- The runtime timezone database's standard offset (minutes east of
UTC) for the component's supported timezone names.  Modelled from the
spec: the IANA database consulted by `Intl`/`toLocaleString` is external
to the repository; only the supported zones are needed, and the
claims about cache behaviour hold for any offset assignment. -/
def tzViewOffset : String → Int
  | "America/Mexico_City" => -360
  | "America/Chihuahua" => -360
  | "America/Tijuana" => -480
  | "America/New_York" => -300
  | "America/Los_Angeles" => -480
  | "America/Chicago" => -360
  | "Europe/Madrid" => 60
  | "Europe/London" => 0
  | _ => 0

/-- Slot construction of the bulk range fetch `fetchAllAvailableSlots`
(lines 290-313): display time for both `startTime` and `endTime`,
`available: true`, and the untouched raw provider string. -/
def mkSlotBulk (offMin : Int) (raw : List Char) : TimeSlot :=
  let timePart := displayOf offMin raw
  ⟨timePart, timePart, true, some raw⟩

/-- Slot construction of the single-date fetch `fetchAvailableSlots`
(lines 376-398) — textually the same mapping as the bulk fetch. -/
def mkSlotSingle (offMin : Int) (raw : List Char) : TimeSlot :=
  let timePart := displayOf offMin raw
  ⟨timePart, timePart, true, some raw⟩

/-- The provider response body: date key to raw slot timestamp strings
(`{ "2025-01-23": { "slots": [...] }, ... }`). -/
abbrev GhlData := List (String × List (List Char))

/-- The in-memory availability cache `allSlots`: date key to slots. -/
abbrev Cache := List (String × List TimeSlot)

/-- The whole-map transform the bulk fetch builds before the single
`setAllSlots(slotsMap)` write (lines 286-317). -/
def transformAll (tz : String) (data : GhlData) : Cache :=
  data.map fun e => (e.1, e.2.map (mkSlotBulk (tzViewOffset tz)))

/-- The single-date transform of `fetchAvailableSlots` (lines 370-398):
the slots under the requested date key, or `[]` when absent. -/
def transformSingle (tz : String) (data : GhlData) (date : String) :
    List TimeSlot :=
  ((List.lookup date data).getD []).map (mkSlotSingle (tzViewOffset tz))

/-! ## The timezone offset resolver

`getTimezoneOffset` (lines 37-81) formats the same instant under UTC and
under the target timezone with `hour12: false` 2-digit fields, extracts
hour and minute from both, takes the signed difference of
minutes-of-day, and corrects day-boundary wraparound with one `-24h` or
`+24h` step. -/

/-- The component's supported timezone values (lines 25-34). -/
inductive SuppTz
  | mexicoCity | chihuahua | tijuana | newYork
  | losAngeles | chicago | madrid | london
deriving DecidableEq

/-- Standard (non-DST) offset, minutes east of UTC.  Modelled from the
spec: the runtime IANA timezone database is external to the repository. -/
def stdOffset : SuppTz → Int
  | .mexicoCity => -360
  | .chihuahua => -360
  | .tijuana => -480
  | .newYork => -300
  | .losAngeles => -480
  | .chicago => -360
  | .madrid => 60
  | .london => 0

/-- Daylight-saving offset, minutes east of UTC.  Modelled from the
spec, as for `stdOffset`. -/
def dstOffset : SuppTz → Int
  | .mexicoCity => -300
  | .chihuahua => -300
  | .tijuana => -420
  | .newYork => -240
  | .losAngeles => -420
  | .chicago => -300
  | .madrid => 120
  | .london => 60

/-- The runtime timezone database's offset for a supported zone at an
instant, parameterized by an arbitrary DST predicate so that the
results hold for every possible DST schedule. -/
def offsetDB (isDst : SuppTz → Nat → Bool) (tz : SuppTz) (t : Nat) : Int :=
  if isDst tz t then dstOffset tz else stdOffset tz

/-- The resolver `getTimezoneOffset(timezone, date)` (lines 37-81).  The instant `t`
is in seconds; both formatters truncate it to whole minutes, the UTC
one reads the minutes-of-day directly, the zoned one reads the
minutes-of-day of the instant shifted by the database offset; the
signed difference is normalized with one `± 24h` correction. -/
def getTimezoneOffset (isDst : SuppTz → Nat → Bool) (timezone : SuppTz)
    (t : Nat) : Int :=
  let tMin : Int := (t / 60 : Nat)
  let utcMinutes := tMin % 1440
  let tzMinutes := (tMin + offsetDB isDst timezone t) % 1440
  let diff := tzMinutes - utcMinutes
  let diff2 := if 12 * 60 < diff then diff - 24 * 60 else diff
  if diff2 < -(12 * 60) then diff2 + 24 * 60 else diff2

/-! ## Timezone auto-detection at mount -/

/-- The supported timezone `value` strings (lines 25-34). -/
def TIMEZONES : List String :=
  ["America/Mexico_City", "America/Chihuahua", "America/Tijuana",
   "America/New_York", "America/Los_Angeles", "America/Chicago",
   "Europe/Madrid", "Europe/London"]

/-- The `TZ_ALIASES` table (lines 132-134). -/
def tzAlias (s : String) : Option String :=
  if s = "America/Santa_Isabel" then some "America/Tijuana" else none

/-- The mount-time auto-detection effect (lines 128-160).  The argument
is the runtime's resolved timezone name, or `none` when resolution
threw (the `catch` arm).  Alias normalization, supported-list check,
the regional heuristic chain, and the hard default. -/
def detectTimezone : Option String → String
  | none => "America/Mexico_City"
  | some browserTz =>
    let normalizedTz := (tzAlias browserTz).getD browserTz
    if normalizedTz ∈ TIMEZONES then normalizedTz
    else if strContains normalizedTz "Tijuana" then "America/Tijuana"
    else if strContains normalizedTz "Los_Angeles" ||
        strContains normalizedTz "Vancouver" ||
        strContains normalizedTz "Phoenix" then "America/Los_Angeles"
    else if strContains normalizedTz "Mexico" ||
        strContains normalizedTz "Mexico_City" ||
        strContains normalizedTz "Guatemala" ||
        strContains normalizedTz "Belize" ||
        strContains normalizedTz "Chicago" then "America/Mexico_City"
    else "America/Mexico_City"

/-! ## The fetch lifecycle and the timezone-change race

The component is single-threaded and event-driven: UI events and fetch
resolutions interleave on one logical thread.  A range fetch is an
async closure created by the render in effect when it starts.  In the
source, `const tzAtStart = selectedTimezone` (line 239) and the
`selectedTimezone` read after the `await` (line 279) name the SAME
immutable binding of that render's closure: React state updates create
fresh bindings for later renders, they never mutate the binding an
in-flight async function closed over.  A fetch task therefore carries
one captured timezone value, and the guard compares it with itself. -/

/-- One in-flight range fetch: the `selectedTimezone` binding of the
render closure that started it. -/
structure FetchTask where
  closureTz : String
deriving DecidableEq

/-- The component state the cache claims concern. -/
structure BookingState where
  selectedTimezone : String
  allSlots : Cache
  pendingFetches : List FetchTask
deriving DecidableEq

/-- Mount: detected timezone set, empty cache, the initial range fetch
in flight (effect at lines 208-223, initial-load path). -/
def startState (tz : String) : BookingState :=
  ⟨tz, [], [⟨tz⟩]⟩

/-- A timezone change (manual selection): the effect at lines 208-223
clears the cache when it is non-empty and starts a new range fetch
whose closure captures the new timezone. -/
def changeTimezone (s : BookingState) (tz : String) : BookingState :=
  let cleared : Cache := if s.allSlots.isEmpty then s.allSlots else []
  ⟨tz, cleared, ⟨tz⟩ :: s.pendingFetches⟩

/-- Resolution of a range fetch (lines 272-327).  A network error (or
non-ok response) reaches the `catch` arm, which only raises a toast:
the cache is untouched.  On success the guard
`if (tzAtStart !== selectedTimezone) return` compares the task's
captured binding with itself — the discard branch is unreachable — and
the whole transformed map is written in one `setAllSlots(slotsMap)`. -/
def resolveRangeFetch (s : BookingState) (f : FetchTask)
    (res : Except Unit GhlData) : BookingState :=
  match res with
  | .error _ => ⟨s.selectedTimezone, s.allSlots, s.pendingFetches.erase f⟩
  | .ok data =>
    if f.closureTz ≠ f.closureTz then
      ⟨s.selectedTimezone, s.allSlots, s.pendingFetches.erase f⟩
    else
      ⟨s.selectedTimezone, transformAll f.closureTz data,
       s.pendingFetches.erase f⟩

/-! ## Month navigation -/

/-- Insertion into a sorted list under the JavaScript string order. -/
def insertSorted (x : String) : List String → List String
  | [] => [x]
  | y :: ys => if strLeB x y then x :: y :: ys else y :: insertSorted x ys

/-- A sort under the JavaScript string order: the model of the default
(lexicographic) `Array.prototype.sort()` at line 459. -/
def sortStr : List String → List String
  | [] => []
  | x :: xs => insertSorted x (sortStr xs)

/-- The navigation-relevant component state. -/
structure NavState where
  year : Int
  month : Int
  day : Int
  selectedDate : String
  availableSlots : List TimeSlot
  allSlots : Cache

/-- The candidate dates of the target month `(y2, m2)` (0-based month):
`Object.keys(allSlots).filter(d => d.startsWith(monthPrefix) &&
(allSlots[d]?.length ?? 0) > 0)` (lines 457-458). -/
def monthCands (cache : Cache) (y2 m2 : Int) : List String :=
  let monthPfx := toString y2 ++ "-" ++ String.mk (pad2 (m2 + 1).toNat) ++ "-"
  (cache.map Prod.fst).filter fun d =>
    strStarts d monthPfx &&
      decide (0 < ((List.lookup d cache).getD []).length)

/-- The handler `navigateMonth` (lines 445-470): set the day to 1, step the month
with year carry (`setDate(1)` then `setMonth(m ± 1)`), then auto-select
the first sorted candidate date of the target month, or clear the
selection. -/
def navigateMonth (s : NavState) (next : Bool) : NavState :=
  let m1 := s.month + (if next then 1 else -1)
  let y2 := s.year + (if m1 < 0 then -1 else if 11 < m1 then 1 else 0)
  let m2 := if m1 < 0 then m1 + 12 else if 11 < m1 then m1 - 12 else m1
  match sortStr (monthCands s.allSlots y2 m2) with
  | [] =>
    ⟨y2, m2, 1, "", [], s.allSlots⟩
  | firstDate :: _ =>
    ⟨y2, m2, 1, firstDate, (List.lookup firstDate s.allSlots).getD [],
     s.allSlots⟩

/-! ## The booking request builder -/

/-- The spec's error taxonomy for the booking builder (§4.5, §7); the
source surfaces them as thrown `Error`s with user-facing messages
(lines 504-506 and 513-515). -/
inductive BookingError
  | missingProviderTimestamp
  | malformedProviderTimestamp
deriving DecidableEq

/-- The provider-native appointment request assembled by
`handleBooking` (lines 560-567); only the fields the claims concern. -/
structure BookingRequest where
  contactId : String
  startTime : List Char
  endTime : List Char
deriving DecidableEq

/-- The booking-request construction of `handleBooking` (lines 501-532).
The slot argument is the result of the `availableSlots.find` at line
502.  A missing slot or a missing/empty stored provider timestamp (the
falsiness test `!selectedSlot.originalGHLTime`) throws before any
parsing; a provider timestamp that fails the strict pattern throws
next; only a full match assembles a request, with `startTime` the raw
stored string and `endTime` built by `buildEndTime`.  (The later
`new Date` validity re-check only further restricts the success path
and is not involved in either failure case.) -/
def buildBookingRequest (slot : Option TimeSlot) (contactId : String) :
    Except BookingError BookingRequest :=
  match slot with
  | none => .error .missingProviderTimestamp
  | some sl =>
    match sl.originalGHLTime with
    | none => .error .missingProviderTimestamp
    | some raw =>
      if raw.isEmpty then .error .missingProviderTimestamp
      else
        match ghlMatch raw with
        | none => .error .malformedProviderTimestamp
        | some p => .ok ⟨contactId, raw, buildEndTime p⟩

/-- The appointment call: `some request` exactly when `handleBooking`
reaches the `POST /api/calendar/appointment` fetch; a thrown builder
error skips it. -/
def bookingCallOf (slot : Option TimeSlot) (contactId : String) :
    Option BookingRequest :=
  (buildBookingRequest slot contactId).toOption

/-! ## Helper lemmas -/

theorem digitChar_isDigitCh {d : Nat} (h : d < 10) :
    isDigitCh (digitChar d) = true := by
  interval_cases d <;> decide

theorem digitChar_toNat {d : Nat} (h : d < 10) :
    (digitChar d).toNat = 48 + d := by
  interval_cases d <;> decide

theorem isDigitCh_bound {c : Char} (h : isDigitCh c = true) :
    48 ≤ c.toNat ∧ c.toNat ≤ 57 := by
  simpa [isDigitCh, Bool.and_eq_true, decide_eq_true_eq] using h

theorem parseIntL_pad2 {n : Nat} (h : n < 100) : parseIntL (pad2 n) = n := by
  have h1 : (digitChar (n / 10)).toNat = 48 + n / 10 :=
    digitChar_toNat (by omega)
  have h2 : (digitChar (n % 10)).toNat = 48 + n % 10 :=
    digitChar_toNat (by omega)
  simp [parseIntL, pad2, h1, h2]
  omega

theorem parseIntL_two_lt {a b : Char} (ha : isDigitCh a = true)
    (hb : isDigitCh b = true) : parseIntL [a, b] < 100 := by
  obtain ⟨h1, h2⟩ := isDigitCh_bound ha
  obtain ⟨h3, h4⟩ := isDigitCh_bound hb
  simp [parseIntL]
  omega

/-- Workhorse for the end-timestamp claims: the string `buildEndTime p`
assembled from any matched provider timestamp matches the strict
pattern again, with the same date, second and offset groups and with
the wrapped end hour/minute in the time groups. -/
theorem ghlMatch_buildEndTime (s : List Char) (p : GhlParts)
    (h : ghlMatch s = some p) :
    ghlMatch (buildEndTime p) =
      some ⟨p.date,
            pad2 ((parseIntL p.hour * 60 + parseIntL p.minute + 45) / 60 % 24),
            pad2 ((parseIntL p.hour * 60 + parseIntL p.minute + 45) % 60),
            p.second, p.offset⟩ := by
  unfold ghlMatch at h
  split at h
  case _ y1 y2 y3 y4 k1 a1 a2 k2 b1 b2 tc h1c h2c k4 m1 m2 k5 s1 s2 sg o1 o2 k6 q1 q2 =>
    split at h
    case isTrue hc =>
      obtain ⟨hy1, hy2, hy3, hy4, hk1, ha1, ha2, hk2, hb1, hb2, htc, hh1,
        hh2, hk4, hm1, hm2, hk5, hs1, hs2, hsg, ho1, ho2, hk6, hq1, hq2⟩ := hc
      obtain rfl : p = ⟨[y1, y2, y3, y4, k1, a1, a2, k2, b1, b2],
          [h1c, h2c], [m1, m2], [s1, s2], [sg, o1, o2, k6, q1, q2]⟩ :=
        (Option.some.injEq _ _).mp h.symm
      have hA : (parseIntL [h1c, h2c] * 60 + parseIntL [m1, m2] + 45) / 60 % 24 < 24 :=
        Nat.mod_lt _ (by norm_num)
      have hB : (parseIntL [h1c, h2c] * 60 + parseIntL [m1, m2] + 45) % 60 < 60 :=
        Nat.mod_lt _ (by norm_num)
      show ghlMatch ([y1, y2, y3, y4, k1, a1, a2, k2, b1, b2] ++ 'T' ::
        pad2 ((parseIntL [h1c, h2c] * 60 + parseIntL [m1, m2] + 45) / 60 % 24) ++ ':' ::
        pad2 ((parseIntL [h1c, h2c] * 60 + parseIntL [m1, m2] + 45) % 60) ++ ':' ::
        [s1, s2] ++ [sg, o1, o2, k6, q1, q2]) = _
      simp only [pad2, List.cons_append, List.nil_append]
      rw [ghlMatch]
      rw [if_pos]
      exact ⟨hy1, hy2, hy3, hy4, hk1, ha1, ha2, hk2, hb1, hb2, rfl,
        digitChar_isDigitCh (by omega), digitChar_isDigitCh (by omega), rfl,
        digitChar_isDigitCh (by omega), digitChar_isDigitCh (by omega), rfl,
        hs1, hs2, hsg, ho1, ho2, hk6, hq1, hq2⟩
    case isFalse => exact absurd h (by simp)
  case _ => exact absurd h (by simp)

theorem splitOnCh_sep_free {sep : Char} {xs : List Char}
    (h : ∀ c ∈ xs, c ≠ sep) (ys : List Char) :
    splitOnCh sep (xs ++ sep :: ys) = xs :: splitOnCh sep ys := by
  induction xs with
  | nil => simp [splitOnCh]
  | cons c cs ih =>
    rw [List.cons_append, splitOnCh]
    simp only [ih (fun d hd => h d (List.mem_cons_of_mem c hd)),
      if_neg (h c (List.mem_cons_self c cs))]

theorem splitOnCh_no_sep {sep : Char} {xs : List Char}
    (h : ∀ c ∈ xs, c ≠ sep) : splitOnCh sep xs = [xs] := by
  induction xs with
  | nil => rfl
  | cons c cs ih =>
    rw [splitOnCh]
    simp only [ih (fun d hd => h d (List.mem_cons_of_mem c hd)),
      if_neg (h c (List.mem_cons_self c cs))]

theorem digitChar_ne_colon {d : Nat} (h : d < 10) : digitChar d ≠ ':' := by
  interval_cases d <;> decide

/-- Display-side end time on a well-formed `HH:MM:SS` display string:
minutes wrap modulo 60 into the hour, the hour is the raw quotient
`(h*60+m+45)/60` with no reduction modulo 24. -/
theorem getEndTime_wellformed (h m s2 : Nat) (hh : h < 24) (hm : m < 60)
    (hs : s2 < 60) :
    getEndTime (pad2 h ++ ':' :: pad2 m ++ ':' :: pad2 s2) =
      pad2 ((h * 60 + m + 45) / 60) ++ ':' :: pad2 ((h * 60 + m + 45) % 60) := by
  have hd : ∀ n : Nat, n < 100 → ∀ c ∈ pad2 n, c ≠ ':' := by
    intro n hn c hc
    simp only [pad2, List.mem_cons, List.not_mem_nil, or_false] at hc
    rcases hc with rfl | rfl
    · exact digitChar_ne_colon (by omega)
    · exact digitChar_ne_colon (by omega)
  have hne : (pad2 h ++ ':' :: pad2 m ++ ':' :: pad2 s2) ≠ [] := by simp [pad2]
  have hsplit : splitOnCh ':' (pad2 h ++ ':' :: pad2 m ++ ':' :: pad2 s2) =
      [pad2 h, pad2 m, pad2 s2] := by
    simp only [List.append_assoc, List.cons_append]
    rw [splitOnCh_sep_free (hd h (by omega)),
      splitOnCh_sep_free (hd m (by omega)), splitOnCh_no_sep (hd s2 (by omega))]
  simp only [getEndTime, if_neg hne, hsplit, List.map_cons, List.map_nil,
    List.getD, List.get?, Option.getD_some,
    parseIntL_pad2 (show h < 100 by omega),
    parseIntL_pad2 (show m < 100 by omega)]

/-! ## Concrete scenario inputs -/

/-- The spec's scenario slot timestamp. -/
def rawSlot0 : List Char := "2025-11-03T16:00:00-06:00".data

/-- The capture groups of `rawSlot0`. -/
def parts0 : GhlParts :=
  ⟨"2025-11-03".data, ['1', '6'], ['0', '0'], ['0', '0'],
   ['-', '0', '6', ':', '0', '0']⟩

/-! ## Claim C2 -/

/-- C2: for every selected slot whose provider timestamp matches the
strict fixed-offset pattern, the booking end-time string is assembled
from the original timestamp's own date, seconds and offset substrings:
re-parsing the built end timestamp yields exactly the original offset
group (and seconds and date groups), so the end timestamp's offset
substring always equals the start timestamp's. -/
theorem booking_end_reuses_offset (s : List Char) (p : GhlParts)
    (h : ghlMatch s = some p) :
    ∃ p2, ghlMatch (buildEndTime p) = some p2 ∧
      p2.offset = p.offset ∧ p2.second = p.second ∧ p2.date = p.date :=
  ⟨_, ghlMatch_buildEndTime s p h, rfl, rfl, rfl⟩

/-- Witness for C2 at the spec's scenario timestamp. -/
theorem booking_end_reuses_offset_checked :
    ∃ p2, ghlMatch (buildEndTime parts0) = some p2 ∧
      p2.offset = parts0.offset ∧ p2.second = parts0.second ∧
      p2.date = parts0.date :=
  booking_end_reuses_offset rawSlot0 parts0 (by decide)

/-! ## Claim C4 -/

/-- C4 counterexample: the display-side end-time computation does NOT
wrap the hour modulo 24: for start time-of-day 23:30 it produces
`24:15`, not the wrapped `00:15` the claim requires. -/
theorem display_end_no_hour_wrap :
    getEndTime "23:30".data ≠ "00:15".data ∧
    getEndTime "23:30".data = "24:15".data :=
  ⟨by decide, by decide⟩

/-- C4 as amended: minutes wrap modulo 60 into the hour in both end-time
computations; the hour is wrapped modulo 24 only in the provider-side
booking computation (which also leaves the date group unchanged), while
the display-side end hour is the raw quotient with no modulo-24
reduction. -/
theorem end_time_wrap_policy :
    (∀ s p, ghlMatch s = some p →
      ∃ p2, ghlMatch (buildEndTime p) = some p2 ∧
        parseIntL p2.hour =
          (parseIntL p.hour * 60 + parseIntL p.minute + 45) / 60 % 24 ∧
        parseIntL p2.minute =
          (parseIntL p.hour * 60 + parseIntL p.minute + 45) % 60 ∧
        p2.date = p.date) ∧
    (∀ h m s2, h < 24 → m < 60 → s2 < 60 →
      getEndTime (pad2 h ++ ':' :: pad2 m ++ ':' :: pad2 s2) =
        pad2 ((h * 60 + m + 45) / 60) ++ ':' ::
          pad2 ((h * 60 + m + 45) % 60)) := by
  constructor
  · intro s p h
    refine ⟨_, ghlMatch_buildEndTime s p h, ?_, ?_, rfl⟩
    · exact parseIntL_pad2 ((Nat.mod_lt _ (by norm_num)).trans (by norm_num))
    · exact parseIntL_pad2 ((Nat.mod_lt _ (by norm_num)).trans (by norm_num))
  · intro h m s2 hh hm hs
    exact getEndTime_wellformed h m s2 hh hm hs

/-- Witness for C4 (amended): the provider side at the scenario
timestamp, the display side at 23:30:00. -/
theorem end_time_wrap_policy_checked :
    (∃ p2, ghlMatch (buildEndTime parts0) = some p2 ∧
      parseIntL p2.hour =
        (parseIntL parts0.hour * 60 + parseIntL parts0.minute + 45) / 60 % 24 ∧
      parseIntL p2.minute =
        (parseIntL parts0.hour * 60 + parseIntL parts0.minute + 45) % 60 ∧
      p2.date = parts0.date) ∧
    getEndTime (pad2 23 ++ ':' :: pad2 30 ++ ':' :: pad2 0) =
      pad2 ((23 * 60 + 30 + 45) / 60) ++ ':' :: pad2 ((23 * 60 + 30 + 45) % 60) :=
  ⟨end_time_wrap_policy.1 rawSlot0 parts0 (by decide),
   end_time_wrap_policy.2 23 30 0 (by decide) (by decide) (by decide)⟩

/-! ## Claim C3 -/

/-- C3 counterexample: at the scenario's own display start `17:00:00`,
the computed 45-minute end time is `17:45` (the `HH:MM` string
`getEndTime` builds), not the claimed `17:45:00`. -/
theorem scenario_end_display_not_seconds :
    getEndTime "17:00:00".data ≠ "17:45:00".data ∧
    getEndTime "17:00:00".data = "17:45".data :=
  ⟨by decide, by decide⟩

/-- C3 as amended: provider slot `2025-11-03T16:00:00-06:00` under
viewer offset UTC-5 (America/New_York standard time, in force on that
date) displays as start `17:00:00`; the computed display end time is
`17:45`; the booking request's provider end timestamp is
`2025-11-03T16:45:00-06:00`. -/
theorem scenario_nov3_pipeline :
    (mkSlotBulk (stdOffset SuppTz.newYork) rawSlot0).startTime =
      "17:00:00".data ∧
    getEndTime "17:00:00".data = "17:45".data ∧
    (ghlMatch rawSlot0).map buildEndTime =
      some "2025-11-03T16:45:00-06:00".data :=
  ⟨by decide, by decide, by decide⟩

/-! ## Claim C7 -/

/-- C7: for every supported timezone, every instant and every possible
DST schedule, the offset resolver returns exactly the timezone
database's offset — hence a value strictly above -720 and at most 720
minutes, and (being a pure function of the timezone and instant) the
same value on every call with the same pair. -/
theorem offset_resolver_range (isDst : SuppTz → Nat → Bool) (tz : SuppTz)
    (t : Nat) :
    getTimezoneOffset isDst tz t = offsetDB isDst tz t ∧
    -720 < getTimezoneOffset isDst tz t ∧
    getTimezoneOffset isDst tz t ≤ 720 := by
  have hbound : -480 ≤ offsetDB isDst tz t ∧ offsetDB isDst tz t ≤ 120 := by
    unfold offsetDB
    cases isDst tz t <;> cases tz <;> simp [stdOffset, dstOffset]
  obtain ⟨h1, h2⟩ := hbound
  simp only [getTimezoneOffset]
  split_ifs <;> omega

/-! ## Claim C8 -/

/-- C8: the mount-time auto-detection always lands on one of the eight
supported timezone values, whatever the runtime reports (including a
thrown exception, the `none` case): alias normalization, the supported
list, the regional heuristic chain and the hard default
`America/Mexico_City` cover every input without surfacing an error. -/
theorem detect_timezone_supported (browserTz : Option String) :
    detectTimezone browserTz ∈ TIMEZONES := by
  cases browserTz with
  | none => decide
  | some bt =>
    simp only [detectTimezone]
    split_ifs with h1 h2 h3 h4
    · exact h1
    · decide
    · decide
    · decide
    · decide

/-! ## Claim C9 -/

/-- C9: a failed range fetch leaves the availability cache exactly as
it was; a successful one replaces the whole map with the transform of
the response — the written map is a function of the response alone
(never merged with the prior cache) and carries exactly the response's
date keys, so a partially-written map is never observable. -/
theorem range_fetch_atomicity :
    (∀ s f, (resolveRangeFetch s f (.error ())).allSlots = s.allSlots) ∧
    (∀ s f data, (resolveRangeFetch s f (.ok data)).allSlots =
      transformAll f.closureTz data) ∧
    (∀ tz data, (transformAll tz data).map Prod.fst = data.map Prod.fst) := by
  refine ⟨fun s f => rfl, fun s f data => ?_, fun tz data => ?_⟩
  · simp [resolveRangeFetch]
  · simp [transformAll]

/-! ## Claim C10 -/

/-- C10: every TimeSlot either fetch constructs has `available = true`,
`endTime` equal to `startTime`, and carries the unmodified original
provider timestamp string; the fetch transforms build slots only by
these constructors, from exactly the raw strings of the response. -/
theorem constructed_slot_invariants :
    (∀ off raw, (mkSlotBulk off raw).available = true ∧
      (mkSlotBulk off raw).endTime = (mkSlotBulk off raw).startTime ∧
      (mkSlotBulk off raw).originalGHLTime = some raw) ∧
    (∀ off raw, (mkSlotSingle off raw).available = true ∧
      (mkSlotSingle off raw).endTime = (mkSlotSingle off raw).startTime ∧
      (mkSlotSingle off raw).originalGHLTime = some raw) ∧
    (∀ tz data d slots, (d, slots) ∈ transformAll tz data →
      ∃ raws, (d, raws) ∈ data ∧
        slots = raws.map (mkSlotBulk (tzViewOffset tz))) ∧
    (∀ tz data date sl, sl ∈ transformSingle tz data date →
      ∃ raw, raw ∈ (List.lookup date data).getD [] ∧
        sl = mkSlotSingle (tzViewOffset tz) raw) := by
  refine ⟨fun off raw => ⟨rfl, rfl, rfl⟩, fun off raw => ⟨rfl, rfl, rfl⟩,
    ?_, ?_⟩
  · intro tz data d slots hmem
    obtain ⟨e, he, heq⟩ := List.mem_map.mp hmem
    obtain ⟨e1, e2⟩ := e
    obtain ⟨rfl, rfl⟩ := Prod.mk.injEq .. |>.mp heq
    exact ⟨e2, he, rfl⟩
  · intro tz data date sl hmem
    obtain ⟨raw, hraw, heq⟩ := List.mem_map.mp hmem
    exact ⟨raw, hraw, heq.symm⟩

/-- Witness for C10 at a concrete response. -/
theorem constructed_slot_invariants_checked :
    (∃ raws, ("2025-11-03", raws) ∈ ([("2025-11-03", [rawSlot0])] : GhlData) ∧
      [mkSlotBulk (tzViewOffset "America/New_York") rawSlot0] =
        raws.map (mkSlotBulk (tzViewOffset "America/New_York"))) ∧
    (∃ raw, raw ∈ (List.lookup "2025-11-03"
        ([("2025-11-03", [rawSlot0])] : GhlData)).getD [] ∧
      mkSlotSingle (tzViewOffset "America/New_York") rawSlot0 =
        mkSlotSingle (tzViewOffset "America/New_York") raw) :=
  ⟨constructed_slot_invariants.2.2.1 "America/New_York"
      [("2025-11-03", [rawSlot0])] "2025-11-03"
      [mkSlotBulk (tzViewOffset "America/New_York") rawSlot0] (by decide),
   constructed_slot_invariants.2.2.2 "America/New_York"
      [("2025-11-03", [rawSlot0])] "2025-11-03"
      (mkSlotSingle (tzViewOffset "America/New_York") rawSlot0) (by decide)⟩

/-! ## Claim C1 -/

/-- A concrete race trace: a range fetch starts under
`America/Mexico_City`, the viewer switches to `America/New_York`
(which clears the cache and starts a fresh fetch), and then the stale
fetch resolves. -/
def staleData : GhlData := [("2025-11-03", [rawSlot0])]

/-- State after the timezone switch, with the stale fetch in flight. -/
def sAfterSwitch : BookingState :=
  changeTimezone (startState "America/Mexico_City") "America/New_York"

/-- State after the stale fetch (captured timezone
`America/Mexico_City`) resolves. -/
def sAfterStale : BookingState :=
  resolveRangeFetch sAfterSwitch ⟨"America/Mexico_City"⟩ (.ok staleData)

/-- C1 fails on the code: the guard at line 279 compares the closure's
captured timezone with itself and can never discard.  On the trace
above, the cache before the stale resolution is empty, the current
timezone is `America/New_York`, and the stale fetch still writes its
whole map — converted under `America/Mexico_City` — into the cache,
exactly the stale-conversion corruption the spec says is prevented. -/
theorem stale_fetch_overwrites_cache :
    sAfterSwitch.allSlots = [] ∧
    sAfterStale.selectedTimezone = "America/New_York" ∧
    sAfterStale.allSlots = transformAll "America/Mexico_City" staleData ∧
    sAfterStale.allSlots ≠ [] :=
  ⟨rfl, rfl, rfl, by decide⟩

/-! ## Claim C5 -/

/-- C5: the booking-request builder fails with
`missingProviderTimestamp` whenever the selected slot is absent or
lacks its stored provider timestamp (it never synthesizes one), fails
with `malformedProviderTimestamp` whenever the stored timestamp does
not match the strict pattern, and the appointment call is issued only
when the stored timestamp parsed — so in both failure cases no call
happens. -/
theorem booking_builder_failures :
    (∀ cid, buildBookingRequest none cid =
      .error .missingProviderTimestamp) ∧
    (∀ sl cid, sl.originalGHLTime = none →
      buildBookingRequest (some sl) cid =
        .error .missingProviderTimestamp) ∧
    (∀ sl raw cid, sl.originalGHLTime = some raw → raw ≠ [] →
      ghlMatch raw = none →
      buildBookingRequest (some sl) cid =
        .error .malformedProviderTimestamp) ∧
    (∀ slot cid req, bookingCallOf slot cid = some req →
      ∃ sl raw p, slot = some sl ∧ sl.originalGHLTime = some raw ∧
        ghlMatch raw = some p ∧ req = ⟨cid, raw, buildEndTime p⟩) := by
  refine ⟨fun cid => rfl, ?_, ?_, ?_⟩
  · intro sl cid hnone
    simp [buildBookingRequest, hnone]
  · intro sl raw cid hsome hne hmatch
    simp [buildBookingRequest, hsome, hmatch, hne]
  · intro slot cid req hcall
    rcases slot with _ | sl
    · simp [bookingCallOf, buildBookingRequest, Except.toOption] at hcall
    · rcases hraw : sl.originalGHLTime with _ | raw
      · simp [bookingCallOf, buildBookingRequest, hraw,
          Except.toOption] at hcall
      · by_cases hemp : raw.isEmpty
        · simp [bookingCallOf, buildBookingRequest, hraw, hemp,
            Except.toOption] at hcall
        · rcases hmatch : ghlMatch raw with _ | p
          · simp [bookingCallOf, buildBookingRequest, hraw, hemp, hmatch,
              Except.toOption] at hcall
          · refine ⟨sl, raw, p, rfl, hraw, hmatch, ?_⟩
            simp [bookingCallOf, buildBookingRequest, hraw, hemp, hmatch,
              Except.toOption] at hcall
            exact hcall.symm

/-- A selected slot with no stored provider timestamp. -/
def slotNoTs : TimeSlot := ⟨"17:00:00".data, "17:00:00".data, true, none⟩

/-- A selected slot whose stored provider timestamp is malformed. -/
def slotBadTs : TimeSlot :=
  ⟨"17:00:00".data, "17:00:00".data, true, some "2025-11-03 16:00".data⟩

/-- A well-formed selected slot. -/
def slotGood : TimeSlot := mkSlotBulk (-300) rawSlot0

/-- The request `handleBooking` assembles for `slotGood`. -/
def reqGood : BookingRequest := ⟨"c1", rawSlot0, buildEndTime parts0⟩

/-- Witness for C5: missing slot, missing timestamp, malformed
timestamp, and an issued call. -/
theorem booking_builder_failures_checked :
    buildBookingRequest none "c1" = .error .missingProviderTimestamp ∧
    buildBookingRequest (some slotNoTs) "c1" =
      .error .missingProviderTimestamp ∧
    buildBookingRequest (some slotBadTs) "c1" =
      .error .malformedProviderTimestamp ∧
    (∃ sl raw p, some slotGood = some sl ∧ sl.originalGHLTime = some raw ∧
      ghlMatch raw = some p ∧ reqGood = ⟨"c1", raw, buildEndTime p⟩) :=
  ⟨booking_builder_failures.1 "c1",
   booking_builder_failures.2.1 slotNoTs "c1" rfl,
   booking_builder_failures.2.2.1 slotBadTs "2025-11-03 16:00".data "c1" rfl
     (by decide) (by decide),
   booking_builder_failures.2.2.2 (some slotGood) "c1" reqGood (by decide)⟩

/-! ## Order facts for the date sort -/

theorem lexLe_refl (a : List Char) : lexLe a a = true := by
  induction a with
  | nil => rfl
  | cons c cs ih => simp [lexLe, ih]

theorem lexLe_total (a b : List Char) : lexLe a b = true ∨ lexLe b a = true := by
  induction a generalizing b with
  | nil => left; rfl
  | cons c cs ih =>
    cases b with
    | nil => right; rfl
    | cons d ds =>
      by_cases h1 : c.toNat < d.toNat
      · left; simp [lexLe, h1]
      · by_cases h2 : d.toNat < c.toNat
        · right; simp [lexLe, h2]
        · rcases ih ds with h | h
          · left; simp [lexLe, h1, h2, h]
          · right; simp [lexLe, h1, h2, h]

theorem lexLe_trans {a b c : List Char} (h1 : lexLe a b = true)
    (h2 : lexLe b c = true) : lexLe a c = true := by
  induction a generalizing b c with
  | nil => rfl
  | cons x xs ih =>
    cases b with
    | nil => simp [lexLe] at h1
    | cons y ys =>
      cases c with
      | nil => simp [lexLe] at h2
      | cons z zs =>
        rw [lexLe] at h1 h2 ⊢
        have H1 : x.toNat < y.toNat ∨
            (x.toNat = y.toNat ∧ lexLe xs ys = true) := by
          by_cases hxy : x.toNat < y.toNat
          · exact Or.inl hxy
          · by_cases hyx : y.toNat < x.toNat
            · rw [if_neg hxy, if_pos hyx] at h1
              exact absurd h1 (by simp)
            · rw [if_neg hxy, if_neg hyx] at h1
              exact Or.inr ⟨by omega, h1⟩
        have H2 : y.toNat < z.toNat ∨
            (y.toNat = z.toNat ∧ lexLe ys zs = true) := by
          by_cases hyz : y.toNat < z.toNat
          · exact Or.inl hyz
          · by_cases hzy : z.toNat < y.toNat
            · rw [if_neg hyz, if_pos hzy] at h2
              exact absurd h2 (by simp)
            · rw [if_neg hyz, if_neg hzy] at h2
              exact Or.inr ⟨by omega, h2⟩
        rcases H1 with hxy | ⟨hxy, l1⟩ <;> rcases H2 with hyz | ⟨hyz, l2⟩
        · rw [if_pos (by omega)]
        · rw [if_pos (by omega)]
        · rw [if_pos (by omega)]
        · rw [if_neg (by omega), if_neg (by omega)]
          exact ih l1 l2

theorem strLeB_refl (a : String) : strLeB a a = true := lexLe_refl a.data

theorem strLeB_total (a b : String) : strLeB a b = true ∨ strLeB b a = true :=
  lexLe_total a.data b.data

theorem strLeB_trans {a b c : String} (h1 : strLeB a b = true)
    (h2 : strLeB b c = true) : strLeB a c = true :=
  lexLe_trans h1 h2

/-- Sortedness under the JavaScript string order. -/
def StrSorted : List String → Prop :=
  List.Pairwise (fun a b => strLeB a b = true)

theorem mem_insertSorted {a x : String} {l : List String} :
    a ∈ insertSorted x l ↔ a = x ∨ a ∈ l := by
  induction l with
  | nil => simp [insertSorted]
  | cons y ys ih =>
    simp only [insertSorted]
    split_ifs
    · simp [List.mem_cons]
    · simp only [List.mem_cons, ih]
      tauto

theorem sorted_insertSorted {x : String} {l : List String}
    (h : StrSorted l) : StrSorted (insertSorted x l) := by
  induction l with
  | nil => simp [insertSorted, StrSorted]
  | cons y ys ih =>
    rw [StrSorted, List.pairwise_cons] at h
    obtain ⟨hy, hys⟩ := h
    rw [insertSorted]
    split_ifs with hxy
    · rw [StrSorted, List.pairwise_cons]
      refine ⟨?_, ?_⟩
      · intro b hb
        rcases List.mem_cons.mp hb with rfl | hb
        · exact hxy
        · exact strLeB_trans hxy (hy b hb)
      · exact List.pairwise_cons.mpr ⟨hy, hys⟩
    · have hyx : strLeB y x = true := by
        rcases strLeB_total x y with h | h
        · exact absurd h hxy
        · exact h
      rw [StrSorted, List.pairwise_cons]
      refine ⟨?_, ih hys⟩
      intro b hb
      rcases mem_insertSorted.mp hb with rfl | hb
      · exact hyx
      · exact hy b hb

theorem mem_sortStr {a : String} {l : List String} :
    a ∈ sortStr l ↔ a ∈ l := by
  induction l with
  | nil => simp [sortStr]
  | cons x xs ih =>
    rw [sortStr]
    rw [mem_insertSorted]
    simp [ih]

theorem sorted_sortStr (l : List String) : StrSorted (sortStr l) := by
  induction l with
  | nil => simp [sortStr, StrSorted]
  | cons x xs ih => exact sorted_insertSorted ih

/-- The head of the sorted list is a minimum of the original list. -/
theorem sortStr_head_min {l : List String} {firstDate : String}
    {rest : List String} (h : sortStr l = firstDate :: rest) :
    ∀ a ∈ l, strLeB firstDate a = true := by
  intro a ha
  have hmem : a ∈ firstDate :: rest := by
    rw [← h]
    exact mem_sortStr.mpr ha
  rcases List.mem_cons.mp hmem with rfl | hmem
  · exact strLeB_refl a
  · have hs := sorted_sortStr l
    rw [h, StrSorted, List.pairwise_cons] at hs
    exact hs.1 a hmem

theorem sortStr_eq_nil {l : List String} (h : sortStr l = []) : l = [] := by
  cases l with
  | nil => rfl
  | cons x xs =>
    exfalso
    have : x ∈ sortStr (x :: xs) := mem_sortStr.mpr (List.mem_cons_self x xs)
    rw [h] at this
    exact absurd this (List.not_mem_nil x)

/-! ## Claim C6 -/

/-- C6: month navigation from any current date (the day is discarded,
so the 29th/30th/31st are no different) lands on day 1 of exactly the
adjacent month — a valid date, never a skipped month; it then
auto-selects a cached date of the target month with a non-empty slot
list that is lexicographically least among all such candidates, and
clears the selected date and available slots when no candidate
exists. -/
theorem navigate_month_correct (s : NavState) (next : Bool)
    (h0 : 0 ≤ s.month) (h11 : s.month ≤ 11) :
    (navigateMonth s next).day = 1 ∧
    (0 ≤ (navigateMonth s next).month ∧ (navigateMonth s next).month ≤ 11) ∧
    12 * (navigateMonth s next).year + (navigateMonth s next).month =
      12 * s.year + s.month + (if next then 1 else -1) ∧
    (monthCands s.allSlots (navigateMonth s next).year
        (navigateMonth s next).month = [] →
      (navigateMonth s next).selectedDate = "" ∧
      (navigateMonth s next).availableSlots = []) ∧
    (∀ d ∈ monthCands s.allSlots (navigateMonth s next).year
        (navigateMonth s next).month,
      (navigateMonth s next).selectedDate ∈
        monthCands s.allSlots (navigateMonth s next).year
          (navigateMonth s next).month ∧
      strLeB (navigateMonth s next).selectedDate d = true) ∧
    (monthCands s.allSlots (navigateMonth s next).year
        (navigateMonth s next).month ≠ [] →
      (navigateMonth s next).availableSlots =
        (List.lookup (navigateMonth s next).selectedDate s.allSlots).getD []) := by
  simp only [navigateMonth]
  split
  case _ hsort =>
    have hcands := sortStr_eq_nil hsort
    refine ⟨rfl, by dsimp only; split_ifs <;> omega, by dsimp only; split_ifs <;> omega, ?_, ?_, ?_⟩
    · exact fun _ => ⟨rfl, rfl⟩
    · intro d hd
      rw [hcands] at hd
      exact absurd hd (List.not_mem_nil d)
    · intro hne
      exact absurd hcands hne
  case _ firstDate rest hsort =>
    refine ⟨rfl, by dsimp only; split_ifs <;> omega, by dsimp only; split_ifs <;> omega, ?_, ?_, ?_⟩
    · intro hcands
      rw [hcands] at hsort
      simp [sortStr] at hsort
    · intro d hd
      refine ⟨?_, sortStr_head_min hsort d hd⟩
      apply mem_sortStr.mp
      rw [hsort]
      exact List.mem_cons_self firstDate rest
    · intro _
      rfl

/-- Witness slot for C6. -/
def slotW : TimeSlot := ⟨"08:00:00".data, "08:00:00".data, true, some rawSlot0⟩

/-- Witness cache for C6: January 2026 has slots on the 3rd and 5th
and an (empty) entry on the 4th. -/
def cacheW : Cache :=
  [("2026-01-05", [slotW]), ("2026-01-03", [slotW]), ("2026-01-04", [])]

/-- Witness navigation state for C6: December 31, 2025 (month index
11), navigating forward into January 2026. -/
def navW : NavState := ⟨2025, 11, 31, "", [], cacheW⟩

/-- Witness for C6 at `navW`, direction `next`. -/
theorem navigate_month_correct_checked :
    (navigateMonth navW true).day = 1 ∧
    (0 ≤ (navigateMonth navW true).month ∧
      (navigateMonth navW true).month ≤ 11) ∧
    12 * (navigateMonth navW true).year + (navigateMonth navW true).month =
      12 * navW.year + navW.month + (if true then 1 else -1) ∧
    (monthCands navW.allSlots (navigateMonth navW true).year
        (navigateMonth navW true).month = [] →
      (navigateMonth navW true).selectedDate = "" ∧
      (navigateMonth navW true).availableSlots = []) ∧
    (∀ d ∈ monthCands navW.allSlots (navigateMonth navW true).year
        (navigateMonth navW true).month,
      (navigateMonth navW true).selectedDate ∈
        monthCands navW.allSlots (navigateMonth navW true).year
          (navigateMonth navW true).month ∧
      strLeB (navigateMonth navW true).selectedDate d = true) ∧
    (monthCands navW.allSlots (navigateMonth navW true).year
        (navigateMonth navW true).month ≠ [] →
      (navigateMonth navW true).availableSlots =
        (List.lookup (navigateMonth navW true).selectedDate
          navW.allSlots).getD []) :=
  navigate_month_correct navW true (by decide) (by decide)

end CareflowCalendar
